import Mathlib

/-!
Verification of the semantic changelog generator
(`src/skills/changelog-generator/scripts/generate.py`).

The Python source is shallowly embedded below: its pure functions become
Lean functions over `String`/`List`, with Python's string primitives
(`str.lower`, substring `in`, `str.endswith`, `pathlib.Path.stem`)
modelled by executable helpers on character lists.
-/

/-- Python `str.lower()` applied character-wise (ASCII case folding, which is
what the repository's paths exercise). -/
def strLower (s : String) : String := ⟨s.data.map Char.toLower⟩

/-- Boolean prefix test on character lists. -/
def isPrefixB : List Char → List Char → Bool
  | [], _ => true
  | _ :: _, [] => false
  | a :: as, b :: bs => a == b && isPrefixB as bs

/-- Boolean infix (contiguous substring) test on character lists. -/
def isInfixB (n h : List Char) : Bool :=
  match h with
  | [] => isPrefixB n []
  | _ :: rest => isPrefixB n h || isInfixB n rest

/-- Python's substring test `needle in haystack`. -/
def containsSub (needle haystack : String) : Bool := isInfixB needle.data haystack.data

/-- Python `s.endswith(sfx)`. -/
def endsWithStr (sfx s : String) : Bool := isPrefixB sfx.data.reverse s.data.reverse

/-- The final path component (pathlib `Path(p).name`; the program only takes
stems of paths ending in `.cs`/`.csproj`, which have a slash-free tail). -/
def basename (p : String) : String := ⟨(p.data.reverse.takeWhile (fun c => c != '/')).reverse⟩

/-- pathlib's `stem` of a file name: drop the part from the last dot provided
that dot is neither the first nor the last character. -/
def stemOfName (name : String) : String :=
  let rev := name.data.reverse
  let afterDot := rev.takeWhile (fun c => c != '.')
  match rev.dropWhile (fun c => c != '.') with
  | '.' :: beforeRev =>
      if !beforeRev.isEmpty && !afterDot.isEmpty then ⟨beforeRev.reverse⟩ else name
  | _ => name

/-- pathlib `Path(p).stem` as used by the generator. -/
def stem (p : String) : String := stemOfName (basename p)

/-- `categorize_path` from generate.py: map a file path to a logical area by
an ordered chain of substring tests over the lowercased path. -/
def categorize_path (path : String) : String :=
  let path_lower := strLower path
  if containsSub ".github/" path_lower then "ci"
  else if containsSub "/test" path_lower || endsWithStr "tests.cs" path_lower then "tests"
  else if containsSub "/benchmark" path_lower then "benchmarks"
  else if containsSub "/example" path_lower then "examples"
  else if containsSub "/docs/" path_lower ||
      (endsWithStr ".md" path_lower && !containsSub "/src/" path_lower) then "docs"
  else if containsSub "/analyzers/" path_lower || containsSub "analyzer" path_lower then "analyzers"
  else if containsSub "/skills/" path_lower then "skills"
  else if containsSub "signalr" path_lower then "signalr"
  else if containsSub "semantickernel" path_lower then "semantickernel"
  else if containsSub "sourcegen" path_lower || containsSub "generator" path_lower then "sourcegen"
  else if containsSub ".reflection" path_lower then "reflection"
  else if containsSub "scrutor" path_lower then "scrutor"
  else if containsSub ".bundle" path_lower then "bundle"
  else if containsSub "aspnet" path_lower || containsSub "webapp" path_lower then "aspnet"
  else if containsSub ".injection" path_lower then "injection"
  else if containsSub "syringe" path_lower then "syringe"
  else if containsSub "/scripts/" path_lower then "scripts"
  else if containsSub "nexuslabs.needlr/" path_lower && containsSub ".cs" path_lower then "core"
  else "other"

/-- The same rule table as an ordered list of (predicate, label) pairs, the
shape the specification describes for the Path Categorizer. -/
def pathRules : List ((String → Bool) × String) :=
  [(fun pl => containsSub ".github/" pl, "ci"),
   (fun pl => containsSub "/test" pl || endsWithStr "tests.cs" pl, "tests"),
   (fun pl => containsSub "/benchmark" pl, "benchmarks"),
   (fun pl => containsSub "/example" pl, "examples"),
   (fun pl => containsSub "/docs/" pl || (endsWithStr ".md" pl && !containsSub "/src/" pl), "docs"),
   (fun pl => containsSub "/analyzers/" pl || containsSub "analyzer" pl, "analyzers"),
   (fun pl => containsSub "/skills/" pl, "skills"),
   (fun pl => containsSub "signalr" pl, "signalr"),
   (fun pl => containsSub "semantickernel" pl, "semantickernel"),
   (fun pl => containsSub "sourcegen" pl || containsSub "generator" pl, "sourcegen"),
   (fun pl => containsSub ".reflection" pl, "reflection"),
   (fun pl => containsSub "scrutor" pl, "scrutor"),
   (fun pl => containsSub ".bundle" pl, "bundle"),
   (fun pl => containsSub "aspnet" pl || containsSub "webapp" pl, "aspnet"),
   (fun pl => containsSub ".injection" pl, "injection"),
   (fun pl => containsSub "syringe" pl, "syringe"),
   (fun pl => containsSub "/scripts/" pl, "scripts"),
   (fun pl => containsSub "nexuslabs.needlr/" pl && containsSub ".cs" pl, "core")]

/-- Evaluate an ordered rule list: first matching rule wins, default "other". -/
def evalRules : List ((String → Bool) × String) → String → String
  | [], _ => "other"
  | r :: rs, pl => if r.1 pl then r.2 else evalRules rs pl

/-- Specification-side categorizer: the label of the first rule of `pathRules`
matching the lowercased path, and "other" when no rule matches. -/
def categorize_path_firstMatch (path : String) : String :=
  match pathRules.find? (fun r => r.1 (strLower path)) with
  | some r => r.2
  | none => "other"

theorem evalRules_eq_find (rs : List ((String → Bool) × String)) (pl : String) :
    evalRules rs pl =
      match rs.find? (fun r => r.1 pl) with
      | some r => r.2
      | none => "other" := by
  induction rs with
  | nil => rfl
  | cons r rs ih =>
      simp only [evalRules, List.find?]
      cases h : r.1 pl with
      | true => simp [h]
      | false => simp [h, ih]

example : categorize_path ".github/workflows/ci.yml" = "ci" := by decide
example : categorize_path "src/NexusLabs.Needlr/Syringe.cs" = "syringe" := by decide
example : categorize_path "src/NexusLabs.Needlr/Widget.cs" = "core" := by decide
example : categorize_path "README.md" = "docs" := by decide
example : categorize_path "lib/Foo.txt" = "other" := by decide
example : stem "src/NexusLabs.Needlr/IFoo.cs" = "IFoo" := by decide
example : stem "a/b.tar.gz" = "b.tar" := by decide

/-- Claim C5: `categorize_path` is total (it is a Lean function on all path
strings), evaluates the fixed ordered rule list `pathRules` with
first-match-wins priority, and returns "other" when no rule matches. -/
theorem categorize_path_first_match_total (p : String) :
    categorize_path p = categorize_path_firstMatch p := by
  have h : categorize_path p = evalRules pathRules (strLower p) := rfl
  rw [h, evalRules_eq_find]
  rfl

/-- Claim C9: path categorization is invariant under letter case — the whole
decision is a function of the lowercased path. -/
theorem categorize_path_case_invariant (p q : String) (h : strLower p = strLower q) :
    categorize_path p = categorize_path q := by
  simp only [categorize_path]
  rw [h]

/-- Claim C9 witness: two letter-case variants of one path categorize equally. -/
theorem categorize_path_case_invariant_witness :
    strLower "/Docs/Readme.MD" = strLower "/docs/readme.md" ∧
      categorize_path "/Docs/Readme.MD" = categorize_path "/docs/readme.md" :=
  ⟨by decide, categorize_path_case_invariant "/Docs/Readme.MD" "/docs/readme.md" (by decide)⟩

/-- The deduplication step of generate.py, `list(dict.fromkeys(xs))`
(lines 425-429): keep each entry's first occurrence, drop later exact
duplicates. `seen` is the set of keys already inserted. -/
def dedupFirstAux (seen : List String) : List String → List String
  | [] => []
  | x :: xs => if x ∈ seen then dedupFirstAux seen xs else x :: dedupFirstAux (x :: seen) xs

/-- `list(dict.fromkeys(l))`. -/
def dedupFirst (l : List String) : List String := dedupFirstAux [] l

theorem dedupFirstAux_mem (x : String) (l : List String) :
    ∀ seen, x ∈ dedupFirstAux seen l ↔ x ∈ l ∧ x ∉ seen := by
  induction l with
  | nil => intro seen; simp [dedupFirstAux]
  | cons y ys ih =>
      intro seen
      simp only [dedupFirstAux]
      by_cases hy : y ∈ seen
      · rw [if_pos hy, ih]
        constructor
        · rintro ⟨h1, h2⟩; exact ⟨List.mem_cons_of_mem _ h1, h2⟩
        · rintro ⟨h1, h2⟩
          rcases List.mem_cons.mp h1 with h | h
          · subst h; exact absurd hy h2
          · exact ⟨h, h2⟩
      · rw [if_neg hy]
        constructor
        · intro h
          rcases List.mem_cons.mp h with h | h
          · subst h; exact ⟨List.mem_cons_self _ _, hy⟩
          · rcases (ih _).mp h with ⟨h1, h2⟩
            refine ⟨List.mem_cons_of_mem _ h1, fun hs => h2 (List.mem_cons_of_mem _ hs)⟩
        · rintro ⟨h1, h2⟩
          rcases List.mem_cons.mp h1 with h | h
          · subst h; exact List.mem_cons_self _ _
          · by_cases hxy : x = y
            · subst hxy; exact List.mem_cons_self _ _
            · refine List.mem_cons_of_mem _ ((ih _).mpr ⟨h, ?_⟩)
              intro hs
              rcases List.mem_cons.mp hs with h' | h'
              · exact hxy h'
              · exact h2 h'

theorem dedupFirstAux_nodup (l : List String) :
    ∀ seen, (dedupFirstAux seen l).Nodup := by
  induction l with
  | nil => intro seen; simp [dedupFirstAux]
  | cons y ys ih =>
      intro seen
      simp only [dedupFirstAux]
      by_cases hy : y ∈ seen
      · rw [if_pos hy]; exact ih _
      · rw [if_neg hy]
        refine List.Nodup.cons ?_ (ih _)
        intro hmem
        exact ((dedupFirstAux_mem y ys _).mp hmem).2 (List.mem_cons_self _ _)

theorem dedupFirstAux_sublist (l : List String) :
    ∀ seen, List.Sublist (dedupFirstAux seen l) l := by
  induction l with
  | nil => intro seen; simp [dedupFirstAux]
  | cons y ys ih =>
      intro seen
      simp only [dedupFirstAux]
      by_cases hy : y ∈ seen
      · rw [if_pos hy]; exact List.Sublist.cons _ (ih _)
      · rw [if_neg hy]; exact List.Sublist.cons₂ _ (ih _)

theorem dedupFirstAux_eq_self (l : List String) :
    ∀ seen, l.Nodup → (∀ x ∈ l, x ∉ seen) → dedupFirstAux seen l = l := by
  induction l with
  | nil => intro seen _ _; rfl
  | cons y ys ih =>
      intro seen hn hd
      have hy : y ∉ seen := hd y (List.mem_cons_self _ _)
      simp only [dedupFirstAux, if_neg hy]
      have htail : ys.Nodup := (List.nodup_cons.mp hn).2
      have hhead : y ∉ ys := (List.nodup_cons.mp hn).1
      congr 1
      refine ih _ htail ?_
      intro x hx hs
      rcases List.mem_cons.mp hs with h | h
      · subst h; exact hhead hx
      · exact hd x (List.mem_cons_of_mem _ hx) h

/-- Claim C7: the deduplication step is idempotent — re-running
`list(dict.fromkeys(·))` on already-deduplicated output is a no-op. -/
theorem dedupFirst_idempotent (l : List String) :
    dedupFirst (dedupFirst l) = dedupFirst l := by
  refine dedupFirstAux_eq_self _ _ (dedupFirstAux_nodup l []) ?_
  intro x _ hs
  exact absurd hs (List.not_mem_nil x)

/-- Claim C2 (amended): the deduplication step merges entries whose
descriptions are exactly equal — the result has no duplicate descriptions,
keeps exactly the descriptions that occurred in the input, and is an
order-preserving subsequence of the input (so the first occurrence's
position is the one kept). Case-insensitively equal but distinct entries
are NOT merged (see the counterexample). -/
theorem dedupFirst_exact_merge (l : List String) :
    List.Sublist (dedupFirst l) l ∧ (dedupFirst l).Nodup ∧
      ∀ x, x ∈ dedupFirst l ↔ x ∈ l := by
  refine ⟨dedupFirstAux_sublist l [], dedupFirstAux_nodup l [], fun x => ?_⟩
  rw [dedupFirst, dedupFirstAux_mem]
  simp

/-- `FileChange` from generate.py: one changed file; `status` is the first
character of git's name-status (A=added, M=modified, D=deleted, R=renamed),
`old_path` is set only for renames. -/
structure FileChange where
  path : String
  status : Char
  insertions : Nat
  deletions : Nat
  old_path : Option String
deriving DecidableEq

/-- The slice of the `analysis` dict that `generate_semantic_changelog`
reads: the by-category grouping and the totals. (`analyze_changes` also
collects per-status lists, which the generator does not consume.) -/
structure Stats where
  total_files : Nat
  insertions : Nat
  deletions : Nat

structure Analysis where
  by_category : String → List FileChange
  stats : Stats

/-- `analyze_changes` from generate.py: group the changes by
`categorize_path` (a defaultdict keyed by area, preserving input order)
and total up the counts. -/
def analyze_changes (changes : List FileChange) : Analysis :=
  { by_category := fun area => changes.filter (fun c => categorize_path c.path == area),
    stats :=
      { total_files := changes.length,
        insertions := (changes.map (fun c => c.insertions)).sum,
        deletions := (changes.map (fun c => c.deletions)).sum } }

/-- Python's truthiness of the optional `old_path` (None and "" are falsy). -/
def oldPathTruthy : Option String → Bool
  | none => false
  | some s => !(s == "")

/-- Interface naming convention used by the detectors: a leading `I`
followed by an uppercase letter. -/
def isInterfaceName (s : String) : Bool :=
  match s.data with
  | c0 :: c1 :: _ => c0 == 'I' && c1.isUpper
  | _ => false

/-- `detect_deleted_interfaces` from generate.py: stems of deleted `.cs`
files whose name follows the interface convention. -/
def detect_deleted_interfaces (changes : List FileChange) : List String :=
  changes.filterMap (fun change =>
    if change.status == 'D' && endsWithStr ".cs" change.path then
      (let filename := stem change.path
       if isInterfaceName filename then some filename else none)
    else none)

/-- `detect_renames` from generate.py: (old stem, new stem) for renamed
`.cs` files with a truthy old path and a changed stem. -/
def detect_renames (changes : List FileChange) : List (String × String) :=
  changes.filterMap (fun change =>
    if change.status == 'R' && oldPathTruthy change.old_path && endsWithStr ".cs" change.path then
      (let old_name := stem (change.old_path.getD "")
       let new_name := stem change.path
       if old_name != new_name then some (old_name, new_name) else none)
    else none)

/-- Leftmost match of the regex `NDLR\d+` in a string (the Roslyn analyzer
id pattern searched by `re.search` in generate.py), or `none`. -/
def ndlrMatchAux : List Char → Option String
  | 'N' :: 'D' :: 'L' :: 'R' :: tail =>
      (let digits := tail.takeWhile (fun c => c.isDigit)
       if digits.isEmpty then ndlrMatchAux ('D' :: 'L' :: 'R' :: tail)
       else some ⟨'N' :: 'D' :: 'L' :: 'R' :: digits⟩)
  | _ :: rest => ndlrMatchAux rest
  | [] => none

def ndlrMatch (s : String) : Option String := ndlrMatchAux s.data

/-- Lexicographic comparison on code points, Python's string `<`. -/
def strLt : List Char → List Char → Bool
  | [], [] => false
  | [], _ :: _ => true
  | _ :: _, [] => false
  | a :: as, b :: bs => if a < b then true else if a == b then strLt as bs else false

def insertSorted (x : String) : List String → List String
  | [] => [x]
  | y :: ys => if strLt x.data y.data then x :: y :: ys else y :: insertSorted x ys

/-- Python `sorted(·)` of a list of distinct strings (ascending). -/
def sortStrings (l : List String) : List String := l.foldr insertSorted []

example : ndlrMatch "src/Analyzers/NDLR001Analyzer.cs" = some "NDLR001" := by decide
example : ndlrMatch "src/Analyzers/Helper.cs" = none := by decide
example : sortStrings ["NDLR002", "NDLR001"] = ["NDLR001", "NDLR002"] := by decide
example : detect_renames [⟨"a/QFactory.cs", 'R', 0, 0, some "a/PFactory.cs"⟩]
    = [("PFactory", "QFactory")] := by decide

/-- The Breaking entries accumulated by `generate_semantic_changelog`
(only deleted interfaces feed `breaking_changes`, lines 243-246). -/
def breakingRaw (changes : List FileChange) : List String :=
  (detect_deleted_interfaces changes).map (fun iface => "Removed `" ++ iface ++ "` interface")

/-- The Changed entries accumulated by `generate_semantic_changelog`, in
program order: significant renames; then the sourcegen, SignalR,
SemanticKernel, ASP.NET, injection/syringe-churn and Scrutor blocks.
Each `if (categories a).isEmpty` guard mirrors the source's
`if a in categories` test on the defaultdict. -/
def changedRaw (categories : String → List FileChange) (changes : List FileChange) : List String :=
  ((detect_renames changes).filterMap (fun rn =>
      if containsSub "Factory" rn.1 || containsSub "Provider" rn.1 || containsSub "Registrar" rn.1
      then some ("`" ++ rn.1 ++ "` renamed to `" ++ rn.2 ++ "`") else none))
  ++ (let sg_files := categories "sourcegen"
      if sg_files.isEmpty then [] else
      let sg_added := sg_files.filter (fun f => f.status == 'A')
      let sg_modified := sg_files.filter (fun f => f.status == 'M')
      if !sg_modified.isEmpty || !sg_added.isEmpty then
        ["Source generation is now the default pattern (reflection is opt-in)"]
      else [])
  ++ (let sr_files := categories "signalr"
      if sr_files.isEmpty then [] else
      if (sr_files.filter (fun f => f.status == 'M')).isEmpty then [] else
        ["SignalR now accepts `IPluginFactory` via dependency injection (no hardcoded reflection)"])
  ++ (let sk_files := categories "semantickernel"
      if sk_files.isEmpty then [] else
      if (sk_files.filter (fun f => f.status == 'M')).isEmpty then [] else
        ["Semantic Kernel now accepts `IPluginFactory` via dependency injection"])
  ++ (let aspnet_files := categories "aspnet"
      if aspnet_files.isEmpty then [] else
      if (aspnet_files.filter (fun f => f.status == 'M')).isEmpty then [] else
        ["ASP.NET package decoupled from Bundle (explicit strategy choice required)"])
  ++ (if (categories "injection").isEmpty && (categories "syringe").isEmpty then [] else
      let core_files := categories "injection" ++ categories "syringe"
      let core_modified := core_files.filter (fun f => f.status == 'M')
      if core_modified.isEmpty then [] else
      if 200 < (core_modified.map (fun f => f.insertions + f.deletions)).sum then
        ["Simplified Syringe API with provider-based architecture"]
      else [])
  ++ (let scrutor_files := categories "scrutor"
      if scrutor_files.isEmpty then [] else
      if (scrutor_files.filter (fun f => f.status == 'M')).isEmpty then [] else
        ["`UsingScrutorTypeRegistrar()` renamed to `UsingScrutor()`"])

/-- The Added entries accumulated by `generate_semantic_changelog`, in
program order: sourcegen, reflection, bundle, analyzers, SignalR,
SemanticKernel, injection/syringe, examples, benchmarks, CI and skills
blocks. -/
def addedRaw (categories : String → List FileChange) : List String :=
  (let sg_files := categories "sourcegen"
   if sg_files.isEmpty then [] else
   let sg_added := sg_files.filter (fun f => f.status == 'A')
   let added_names := (sg_added.filter (fun f => endsWithStr ".cs" f.path)).map (fun f => stem f.path)
   (if added_names.any (fun n => containsSub "provider" (strLower n)) then
      ["Source-generation type providers (`GeneratedTypeProvider`, `GeneratedPluginProvider`)"]
    else [])
   ++ (if added_names.any (fun n => containsSub "bootstrap" (strLower n)) then
        ["Module initializer bootstrap for zero-reflection startup"]
      else [])
   ++ (if added_names.any (fun n => containsSub "factory" (strLower n)) then
        ["Source-generation plugin factory (`GeneratedPluginFactory`)"]
      else []))
  ++ (let ref_files := categories "reflection"
      if ref_files.isEmpty then [] else
      let ref_added := ref_files.filter (fun f => f.status == 'A')
      let added_names := (ref_added.filter (fun f => endsWithStr ".cs" f.path)).map (fun f => stem f.path)
      (if added_names.any (fun n => containsSub "provider" (strLower n)) then
         ["Reflection-based type providers (`ReflectionTypeProvider`, `ReflectionPluginProvider`)"]
       else [])
      ++ (if added_names.any (fun n => containsSub "factory" (strLower n)) then
           ["Reflection-based plugin factory (`ReflectionPluginFactory`)"]
         else []))
  ++ (let bundle_files := categories "bundle"
      if bundle_files.isEmpty then [] else
      if (bundle_files.filter (fun f => f.status == 'A')).isEmpty then [] else
        ["Bundle package with auto-configuration (source-gen first, reflection fallback)"])
  ++ (let analyzer_files := categories "analyzers"
      if analyzer_files.isEmpty then [] else
      let analyzer_added := analyzer_files.filter (fun f => f.status == 'A' && endsWithStr ".cs" f.path)
      if analyzer_added.isEmpty then [] else
      let analyzer_ids := sortStrings (dedupFirst (analyzer_added.filterMap (fun f => ndlrMatch f.path)))
      if analyzer_ids.isEmpty then ["Roslyn analyzers for common Needlr mistakes"]
      else ["Roslyn analyzers (" ++ ⟨List.intercalate [',', ' '] (analyzer_ids.map String.data)⟩ ++ ")"])
  ++ (let sr_files := categories "signalr"
      if sr_files.isEmpty then [] else
      let sr_added := sr_files.filter (fun f => f.status == 'A' && endsWithStr ".cs" f.path)
      if sr_added.any (fun f => containsSub "generated" (strLower f.path)) then
        ["Source-generation support for SignalR hub registration"]
      else [])
  ++ (let sk_files := categories "semantickernel"
      if sk_files.isEmpty then [] else
      let sk_added := sk_files.filter (fun f => f.status == 'A' && endsWithStr ".cs" f.path)
      if sk_added.any (fun f => containsSub "generated" (strLower f.path)) then
        ["Source-generation support for Semantic Kernel plugin discovery"]
      else [])
  ++ (if (categories "injection").isEmpty && (categories "syringe").isEmpty then [] else
      let core_files := categories "injection" ++ categories "syringe"
      let core_added := core_files.filter (fun f => f.status == 'A')
      let added_names := (core_added.filter (fun f => endsWithStr ".cs" f.path)).map (fun f => stem f.path)
      if added_names.any (fun n => containsSub "provider" (strLower n)) then
        ["Provider-based architecture (`IInjectableTypeProvider`, `IPluginTypeProvider`)"]
      else [])
  ++ (let example_files := categories "examples"
      if example_files.isEmpty then [] else
      let example_added := example_files.filter (fun f => f.status == 'A')
      (if example_added.any (fun f => containsSub "aot" (strLower f.path)) then
         ["AOT/Trimming example applications (console and web)"]
       else [])
      ++ (if example_added.any (fun f => containsSub "bundle" (strLower f.path)) then
           ["Bundle auto-configuration example"]
         else [])
      ++ (if example_added.any (fun f => containsSub "benchmark" (strLower f.path)) then
           ["Performance benchmarks comparing source-gen vs reflection"]
         else []))
  ++ (let bench_files := categories "benchmarks"
      if bench_files.isEmpty then [] else
      if (bench_files.filter (fun f => f.status == 'A')).isEmpty then [] else
        ["Performance benchmarks comparing source-gen vs reflection"])
  ++ (let ci_files := categories "ci"
      if ci_files.isEmpty then [] else
      if (ci_files.filter (fun f => f.status == 'A' || f.status == 'M')).isEmpty then [] else
        ["Parallel CI/CD with AOT publish validation"])
  ++ (let skill_files := categories "skills"
      if skill_files.isEmpty then [] else
      if (skill_files.filter (fun f => f.status == 'A')).isEmpty then [] else
        ["Changelog generator agent skill"])

/-- The Removed entries accumulated by `generate_semantic_changelog`, in
program order: core-package deletions not already reported as interface
removals (lines 258-264), then the injection/syringe deleted-file chain
(lines 365-385; the `path_lower` local in the source is computed but
unused). -/
def removedRaw (categories : String → List FileChange) (changes : List FileChange) : List String :=
  ((changes.filter (fun c =>
      c.status == 'D' && containsSub "NexusLabs.Needlr/" c.path && endsWithStr ".cs" c.path)).filterMap
    (fun change =>
      let name := stem change.path
      if name ∈ detect_deleted_interfaces changes then none
      else if containsSub "Factory" name || containsSub "Provider" name ||
          containsSub "Registrar" name || containsSub "Populator" name then
        some ("`" ++ name ++ "` (moved to explicit package or replaced)")
      else none))
  ++ (if (categories "injection").isEmpty && (categories "syringe").isEmpty then [] else
      let core_files := categories "injection" ++ categories "syringe"
      let core_deleted := core_files.filter (fun f => f.status == 'D')
      if core_deleted.isEmpty then [] else
      core_deleted.filterMap (fun f =>
        if endsWithStr ".cs" f.path then
          (let name := stem f.path
           if containsSub "loader" (strLower name) then
             some ("`" ++ name ++ "` (assembly loading now handled by providers)")
           else if containsSub "sorter" (strLower name) then
             some ("`" ++ name ++ "` (assembly sorting no longer needed)")
           else if containsSub "registrar" (strLower name) then
             some ("`" ++ name ++ "` (replaced by `IInjectableTypeProvider`)")
           else if containsSub "filterer" (strLower name) then
             some ("`" ++ name ++ "` (no longer needed)")
           else if containsSub "populator" (strLower name) then
             some ("`" ++ name ++ "` (replaced by `ProviderBasedServiceProviderBuilder`)")
           else if isInterfaceName name then none
           else if containsSub "extension" (strLower name) then
             some ("`" ++ name ++ "` (consolidated or moved)")
           else none)
        else none))

/-- The per-category lists after the dedup step (lines 425-429). -/
def breakingFinal (changes : List FileChange) : List String := dedupFirst (breakingRaw changes)

def addedFinal (categories : String → List FileChange) : List String :=
  dedupFirst (addedRaw categories)

def changedFinal (categories : String → List FileChange) (changes : List FileChange) : List String :=
  dedupFirst (changedRaw categories changes)

def removedFinal (categories : String → List FileChange) (changes : List FileChange) : List String :=
  dedupFirst (removedRaw categories changes)

/-- One rendered category block: heading, one `- ` bullet per entry, then a
blank line — emitted only when the category has at least one entry
(the `if breaking_changes: ...` pattern of lines 432-454). -/
def sectionIf (heading : String) (entries : List String) : List String :=
  if entries.isEmpty then [] else heading :: entries.map (fun e => "- " ++ e) ++ [""]

/-- The closing stats line (line 458). -/
def statsLine (stats : Stats) : String :=
  "_(" ++ Nat.repr stats.total_files ++ " files changed, +" ++ Nat.repr stats.insertions ++
    "/-" ++ Nat.repr stats.deletions ++ " lines)_"

/-- Version heading, blank line, then the four category blocks in source
order (lines 234 and 431-454). -/
def bodyLines (categories : String → List FileChange) (changes : List FileChange)
    (version release_date : String) : List String :=
  ["## [" ++ version ++ "] - " ++ release_date, ""]
  ++ sectionIf "### ⚠️ Breaking Changes" (breakingFinal changes)
  ++ sectionIf "### Added" (addedFinal categories)
  ++ sectionIf "### Changed" (changedFinal categories changes)
  ++ sectionIf "### Removed" (removedFinal categories changes)

/-- All output lines of `generate_semantic_changelog`. -/
def generateLines (analysis : Analysis) (changes : List FileChange)
    (version release_date : String) : List String :=
  bodyLines analysis.by_category changes version release_date ++ [statsLine analysis.stats]

/-- Python `'\n'.join(lines)`. -/
def joinLines (lines : List String) : String :=
  ⟨List.intercalate ['\n'] (lines.map String.data)⟩

/-- `generate_semantic_changelog` from generate.py (its `repo`, `from_ref`
and `to_ref` parameters are never read in the body and are omitted). -/
def generate_semantic_changelog (analysis : Analysis) (changes : List FileChange)
    (version release_date : String) : String :=
  joinLines (generateLines analysis changes version release_date)

/-- `main` warns (on stderr) exactly when the extracted change list is
empty (lines 515-517), and still proceeds to generate the changelog. -/
def emptyRangeWarning (changes : List FileChange) : Bool := changes.isEmpty

example :
    generate_semantic_changelog (analyze_changes []) [] "0.0.2" "2025-01-01" =
      "## [0.0.2] - 2025-01-01\n\n_(0 files changed, +0/-0 lines)_" := by decide

example :
    breakingFinal [⟨"src/NexusLabs.Needlr/IFoo.cs", 'D', 0, 5, none⟩] =
      ["Removed `IFoo` interface"] := by decide

/-- Claim C8: with zero changes in the range, `main` signals a warning and
the generated section is still well formed — the version/date heading, a
blank line and the stats line, with no category blocks; generation does
not fail. -/
theorem empty_range_section (version release_date : String) :
    generateLines (analyze_changes []) [] version release_date =
      ["## [" ++ version ++ "] - " ++ release_date, "", "_(0 files changed, +0/-0 lines)_"]
    ∧ emptyRangeWarning [] = true :=
  ⟨rfl, rfl⟩

/-- The closed category enum of the changelog (spec §3). -/
inductive Category where
  | Breaking | Added | Changed | Deprecated | Removed | Fixed | Security
deriving DecidableEq

/-- The fixed rendering order of the categories. -/
def categoryOrder : List Category :=
  [Category.Breaking, Category.Added, Category.Changed, Category.Deprecated,
   Category.Removed, Category.Fixed, Category.Security]

/-- Section heading per category (the texts the generator emits; the three
categories it never populates get the natural heading). -/
def headingFor : Category → String
  | Category.Breaking => "### ⚠️ Breaking Changes"
  | Category.Added => "### Added"
  | Category.Changed => "### Changed"
  | Category.Deprecated => "### Deprecated"
  | Category.Removed => "### Removed"
  | Category.Fixed => "### Fixed"
  | Category.Security => "### Security"

/-- The generator's final entry list per category: Deprecated, Fixed and
Security are never populated by generate.py. -/
def entriesFor (categories : String → List FileChange) (changes : List FileChange) :
    Category → List String
  | Category.Breaking => breakingFinal changes
  | Category.Added => addedFinal categories
  | Category.Changed => changedFinal categories changes
  | Category.Deprecated => []
  | Category.Removed => removedFinal categories changes
  | Category.Fixed => []
  | Category.Security => []

/-- Claim C4: the rendered output is the version/date heading followed by
the category blocks in the fixed order Breaking, Added, Changed,
Deprecated, Removed, Fixed, Security — a heading appears only for a
category with at least one entry (empty categories contribute no lines),
each entry is rendered as a single `- ` bullet carrying only the
description, and the stats line closes the section. -/
theorem rendered_category_order (analysis : Analysis) (changes : List FileChange)
    (version release_date : String) :
    generateLines analysis changes version release_date =
      ["## [" ++ version ++ "] - " ++ release_date, ""]
      ++ (categoryOrder.map (fun c =>
            sectionIf (headingFor c) (entriesFor analysis.by_category changes c))).flatten
      ++ [statsLine analysis.stats] := by
  simp [generateLines, bodyLines, categoryOrder, headingFor, entriesFor, sectionIf,
    List.flatten, List.append_assoc]

theorem getLast_append_singleton (l : List String) (a : String) :
    (l ++ [a]).getLast? = some a := by
  induction l with
  | nil => rfl
  | cons x xs ih =>
      rw [List.cons_append]
      cases h : xs ++ [a] with
      | nil => exact absurd h (by simp)
      | cons y ys =>
          rw [h] at ih
          simpa [List.getLast?] using ih

theorem joinLines_cons (x y : String) (l : List String) :
    (joinLines (x :: y :: l)).data = x.data ++ '\n' :: (joinLines (y :: l)).data := by
  simp [joinLines, List.intercalate, List.intersperse]

theorem joinLines_last_suffix (l : List String) (s : String) :
    ∃ p, (joinLines (l ++ [s])).data = p ++ s.data := by
  induction l with
  | nil => exact ⟨[], by simp [joinLines, List.intercalate, List.intersperse]⟩
  | cons x xs ih =>
      obtain ⟨p, hp⟩ := ih
      cases xs with
      | nil =>
          refine ⟨x.data ++ ['\n'], ?_⟩
          simp [joinLines, List.intercalate, List.intersperse]
      | cons y ys =>
          refine ⟨x.data ++ '\n' :: p, ?_⟩
          simp only [List.cons_append] at hp ⊢
          rw [joinLines_cons x y (ys ++ [s]), hp]
          simp

/-- Claim C10: the generated string always closes with the summary line
giving N files changed, plus I and minus D lines, where N is the number of
input FileChange records, I the sum of their insertions and D the sum of
their deletions — also when the change list is empty. -/
theorem stats_line_closes_output (changes : List FileChange) (version release_date : String) :
    (generateLines (analyze_changes changes) changes version release_date).getLast? =
      some ("_(" ++ Nat.repr changes.length ++ " files changed, +" ++
        Nat.repr ((changes.map (fun c => c.insertions)).sum) ++ "/-" ++
        Nat.repr ((changes.map (fun c => c.deletions)).sum) ++ " lines)_")
    ∧ ∃ p,
        (generate_semantic_changelog (analyze_changes changes) changes version release_date).data =
          p ++ ("_(" ++ Nat.repr changes.length ++ " files changed, +" ++
            Nat.repr ((changes.map (fun c => c.insertions)).sum) ++ "/-" ++
            Nat.repr ((changes.map (fun c => c.deletions)).sum) ++ " lines)_").data := by
  constructor
  · exact getLast_append_singleton
      (bodyLines (analyze_changes changes).by_category changes version release_date)
      (statsLine (analyze_changes changes).stats)
  · exact joinLines_last_suffix
      (bodyLines (analyze_changes changes).by_category changes version release_date)
      (statsLine (analyze_changes changes).stats)

theorem mem_sectionIf (heading e : String) (entries : List String) (he : e ∈ entries) :
    ("- " ++ e) ∈ sectionIf heading entries := by
  have hne : entries ≠ [] := List.ne_nil_of_mem he
  have hie : entries.isEmpty = false := by
    cases h : entries with
    | nil => exact absurd h hne
    | cons a l => rfl
  unfold sectionIf
  rw [if_neg (by simp [hie])]
  exact List.mem_cons_of_mem _ (List.mem_append_left _ (List.mem_map.mpr ⟨e, he, rfl⟩))

theorem mem_generateLines_breaking (analysis : Analysis) (changes : List FileChange)
    (version release_date : String) (e : String) (he : e ∈ breakingFinal changes) :
    ("- " ++ e) ∈ generateLines analysis changes version release_date := by
  have h := mem_sectionIf "### ⚠️ Breaking Changes" e _ he
  simp only [generateLines, bodyLines, List.mem_append]
  exact Or.inl (Or.inl (Or.inl (Or.inl (Or.inr h))))

theorem mem_generateLines_changed (analysis : Analysis) (changes : List FileChange)
    (version release_date : String) (e : String)
    (he : e ∈ changedFinal analysis.by_category changes) :
    ("- " ++ e) ∈ generateLines analysis changes version release_date := by
  have h := mem_sectionIf "### Changed" e _ he
  simp only [generateLines, bodyLines, List.mem_append]
  exact Or.inl (Or.inl (Or.inr h))

/-- Claim C6 counterexample: for a deleted `.cs` file named `IFoo` the
generator's Breaking entry is the string "Removed `IFoo` interface" — the
entry claimed by the specification, "Removed `IFoo` interface/contract.",
appears nowhere in the output. -/
theorem deleted_interface_wording_counterexample :
    breakingFinal [⟨"src/NexusLabs.Needlr/IFoo.cs", 'D', 0, 5, none⟩] =
      ["Removed `IFoo` interface"]
    ∧ "Removed `IFoo` interface/contract." ∉
        breakingFinal [⟨"src/NexusLabs.Needlr/IFoo.cs", 'D', 0, 5, none⟩]
    ∧ "- Removed `IFoo` interface/contract." ∉
        generateLines (analyze_changes [⟨"src/NexusLabs.Needlr/IFoo.cs", 'D', 0, 5, none⟩])
          [⟨"src/NexusLabs.Needlr/IFoo.cs", 'D', 0, 5, none⟩] "0.0.2" "2025-01-01" := by
  refine ⟨by decide, by decide, by decide⟩

/-- Claim C6 (amended): for every FileChange with status Deleted whose path
ends in `.cs` and whose base name starts with `I` followed by an uppercase
letter, the output contains the Breaking entry
"Removed `<name>` interface" (without the "/contract." suffix the
specification claims), rendered as a bullet line. -/
theorem deleted_interface_breaking_entry (changes : List FileChange) (c : FileChange)
    (version release_date : String)
    (hmem : c ∈ changes) (hD : c.status = 'D')
    (hcs : endsWithStr ".cs" c.path = true)
    (hiface : isInterfaceName (stem c.path) = true) :
    ("Removed `" ++ stem c.path ++ "` interface") ∈ breakingFinal changes
    ∧ ("- " ++ ("Removed `" ++ stem c.path ++ "` interface")) ∈
        generateLines (analyze_changes changes) changes version release_date := by
  have h1 : stem c.path ∈ detect_deleted_interfaces changes := by
    refine List.mem_filterMap.mpr ⟨c, hmem, ?_⟩
    simp [hD, hcs, hiface]
  have h2 : ("Removed `" ++ stem c.path ++ "` interface") ∈ breakingRaw changes :=
    List.mem_map.mpr ⟨stem c.path, h1, rfl⟩
  have h3 : ("Removed `" ++ stem c.path ++ "` interface") ∈ breakingFinal changes :=
    (dedupFirstAux_mem _ (breakingRaw changes) []).mpr ⟨h2, List.not_mem_nil _⟩
  exact ⟨h3, mem_generateLines_breaking _ _ _ _ _ h3⟩

/-- Claim C6 witness: the amended theorem applied at a concrete deleted
interface file. -/
theorem deleted_interface_breaking_entry_witness :
    isInterfaceName (stem "src/NexusLabs.Needlr/IFoo.cs") = true
    ∧ ("- " ++ ("Removed `" ++ stem "src/NexusLabs.Needlr/IFoo.cs" ++ "` interface")) ∈
        generateLines (analyze_changes [⟨"src/NexusLabs.Needlr/IFoo.cs", 'D', 0, 5, none⟩])
          [⟨"src/NexusLabs.Needlr/IFoo.cs", 'D', 0, 5, none⟩] "0.0.2" "2025-01-01" := by
  have h := deleted_interface_breaking_entry
    [⟨"src/NexusLabs.Needlr/IFoo.cs", 'D', 0, 5, none⟩]
    ⟨"src/NexusLabs.Needlr/IFoo.cs", 'D', 0, 5, none⟩
    "0.0.2" "2025-01-01" (by decide) rfl (by decide) (by decide)
  exact ⟨by decide, h.2⟩

/-- Claim C3 counterexample: a docs-area modified file with churn 300 (above
the threshold 200) produces no summarizing Changed entry at all — the churn
threshold is not applied to every functional area. -/
theorem churn_threshold_counterexample :
    (((((analyze_changes [⟨"/docs/guide.md", 'M', 300, 0, none⟩]).by_category "docs").filter
        (fun f => f.status == 'M')).map (fun f => f.insertions + f.deletions)).sum = 300)
    ∧ changedFinal (analyze_changes [⟨"/docs/guide.md", 'M', 300, 0, none⟩]).by_category
        [⟨"/docs/guide.md", 'M', 300, 0, none⟩] = []
    ∧ generateLines (analyze_changes [⟨"/docs/guide.md", 'M', 300, 0, none⟩])
        [⟨"/docs/guide.md", 'M', 300, 0, none⟩] "0.0.2" "2025-01-01" =
        ["## [0.0.2] - 2025-01-01", "", "_(1 files changed, +300/-0 lines)_"] := by
  refine ⟨by decide, by decide, by decide⟩

/-- Claim C3 (amended): the churn threshold exists only for the combined
injection/syringe area: when the insertions+deletions total over that
area's modified files exceeds the fixed constant 200, the single
summarizing Changed entry "Simplified Syringe API with provider-based
architecture" is emitted — exactly once after deduplication — and rendered
as a bullet line. No other functional area has a churn rule, and the
analyzer never emits per-file Changed entries. -/
theorem syringe_churn_single_entry (changes : List FileChange) (version release_date : String)
    (hchurn : 200 <
      ((((analyze_changes changes).by_category "injection" ++
          (analyze_changes changes).by_category "syringe").filter
            (fun f => f.status == 'M')).map (fun f => f.insertions + f.deletions)).sum) :
    (changedFinal (analyze_changes changes).by_category changes).count
        "Simplified Syringe API with provider-based architecture" = 1
    ∧ ("- " ++ "Simplified Syringe API with provider-based architecture") ∈
        generateLines (analyze_changes changes) changes version release_date := by
  have hcm : (((analyze_changes changes).by_category "injection" ++
      (analyze_changes changes).by_category "syringe").filter (fun f => f.status == 'M')) ≠ [] := by
    intro h
    rw [h] at hchurn
    simp at hchurn
  have hcmb : (((analyze_changes changes).by_category "injection" ++
      (analyze_changes changes).by_category "syringe").filter
        (fun f => f.status == 'M')).isEmpty = false := by
    cases h : ((analyze_changes changes).by_category "injection" ++
        (analyze_changes changes).by_category "syringe").filter (fun f => f.status == 'M') with
    | nil => exact absurd h hcm
    | cons a l => rfl
  have hg : (((analyze_changes changes).by_category "injection").isEmpty &&
      ((analyze_changes changes).by_category "syringe").isEmpty) = false := by
    cases hci : (analyze_changes changes).by_category "injection" with
    | cons a l => rfl
    | nil =>
        cases hcs2 : (analyze_changes changes).by_category "syringe" with
        | cons a l => rfl
        | nil =>
            exfalso
            apply hcm
            rw [hci, hcs2]
            rfl
  have hmemraw : "Simplified Syringe API with provider-based architecture" ∈
      changedRaw (analyze_changes changes).by_category changes := by
    simp only [changedRaw, List.mem_append]
    refine Or.inl (Or.inr ?_)
    simp only [hg, Bool.false_eq_true, if_false, hcmb]
    rw [if_pos hchurn]
    exact List.mem_cons_self _ _
  have hmemfin : "Simplified Syringe API with provider-based architecture" ∈
      changedFinal (analyze_changes changes).by_category changes :=
    (dedupFirstAux_mem _ (changedRaw (analyze_changes changes).by_category changes) []).mpr
      ⟨hmemraw, List.not_mem_nil _⟩
  refine ⟨List.count_eq_one_of_mem (dedupFirstAux_nodup _ []) hmemfin, ?_⟩
  exact mem_generateLines_changed _ _ _ _ _ hmemfin

/-- Claim C3 witness: the amended theorem applied to one injection-area
file with churn 250. -/
theorem syringe_churn_single_entry_witness :
    (200 <
      ((((analyze_changes [⟨"src/NexusLabs.Needlr.Injection/SyringeBuilder.cs", 'M', 150, 100,
            none⟩]).by_category "injection" ++
          (analyze_changes [⟨"src/NexusLabs.Needlr.Injection/SyringeBuilder.cs", 'M', 150, 100,
            none⟩]).by_category "syringe").filter
            (fun f => f.status == 'M')).map (fun f => f.insertions + f.deletions)).sum)
    ∧ (changedFinal
        (analyze_changes [⟨"src/NexusLabs.Needlr.Injection/SyringeBuilder.cs", 'M', 150, 100,
          none⟩]).by_category
        [⟨"src/NexusLabs.Needlr.Injection/SyringeBuilder.cs", 'M', 150, 100, none⟩]).count
        "Simplified Syringe API with provider-based architecture" = 1 := by
  have h := syringe_churn_single_entry
    [⟨"src/NexusLabs.Needlr.Injection/SyringeBuilder.cs", 'M', 150, 100, none⟩]
    "0.0.2" "2025-01-01" (by decide)
  exact ⟨by decide, h.1⟩

/-- Claim C2 counterexample: two rename entries whose descriptions are
equal case-insensitively but not byte-for-byte survive the deduplication
step as two distinct Changed entries — they are not merged into one, and
no contributing identifiers exist to union. -/
theorem dedup_not_case_insensitive_counterexample :
    changedFinal
        (analyze_changes
          [⟨"Lib/QFactory.cs", 'R', 0, 0, some "Lib/PFactory.cs"⟩,
           ⟨"Lib/qFactory.cs", 'R', 0, 0, some "Lib/pFactory.cs"⟩]).by_category
        [⟨"Lib/QFactory.cs", 'R', 0, 0, some "Lib/PFactory.cs"⟩,
         ⟨"Lib/qFactory.cs", 'R', 0, 0, some "Lib/pFactory.cs"⟩] =
      ["`PFactory` renamed to `QFactory`", "`pFactory` renamed to `qFactory`"]
    ∧ strLower "`PFactory` renamed to `QFactory`" = strLower "`pFactory` renamed to `qFactory`" := by
  refine ⟨by decide, by decide⟩

/-- Modelled from the spec: the per-commit record of §3. The commit-message
classifier described in spec §4.3 is not present under src/ (the repository
only contains the file-diff analyzer), so the classifier and its inputs
are modelled from the specification's words. -/
structure Commit where
  id : String
  subject : String
  body : String
  author : String
  date : String
  files : List String
deriving DecidableEq

/-- Modelled from the spec: derived classification fields of §3/§4.3. -/
structure ClassifiedCommit where
  commitType : Option String
  scope : Option String
  isBreaking : Bool
  category : Option Category
deriving DecidableEq

/-- Modelled from the spec: parse a subject against the conventional-commit
grammar `type[(scope)][!]: description` (§4.3 step 1), returning the type,
the optional scope, and whether the breaking `!` marker is present. -/
def parseConventional (subject : String) : Option (String × Option String × Bool) :=
  let ty := subject.data.takeWhile Char.isAlpha
  let r1 := subject.data.dropWhile Char.isAlpha
  if ty.isEmpty then none
  else
    match r1 with
    | '(' :: r2 =>
        (let sc := r2.takeWhile (fun c => c != ')')
         match r2.dropWhile (fun c => c != ')') with
         | ')' :: '!' :: ':' :: _ => some (⟨ty⟩, some ⟨sc⟩, true)
         | ')' :: ':' :: _ => some (⟨ty⟩, some ⟨sc⟩, false)
         | _ => none)
    | '!' :: ':' :: _ => some (⟨ty⟩, none, true)
    | ':' :: _ => some (⟨ty⟩, none, false)
    | _ => none

/-- Modelled from the spec: the fixed list of breaking-change indicator
phrases scanned case-insensitively over subject + body (§4.3 step 2). -/
def breakingIndicatorPhrases : List String :=
  ["breaking change", "breaking:", "removes", "deletes", "renames"]

def hasBreakingIndicator (subject body : String) : Bool :=
  breakingIndicatorPhrases.any
    (fun k => containsSub k (strLower (subject ++ "\n" ++ body)))

/-- Modelled from the spec: the fixed type-to-category table of §4.3 step 4
(`none` is the excluded "none" category). -/
def typeCategoryTable : List (String × Option Category) :=
  [("feat", some Category.Added), ("fix", some Category.Fixed),
   ("refactor", some Category.Changed), ("perf", some Category.Changed),
   ("style", none), ("docs", none), ("test", none),
   ("chore", none), ("ci", none), ("build", none)]

/-- Modelled from the spec: the ordered keyword fallback over the subject
alone (§4.3 step 5), defaulting to Changed. -/
def keywordFallback (subject : String) : Category :=
  let s := strLower subject
  if containsSub "add" s || containsSub "new" s || containsSub "create" s ||
      containsSub "implement" s then Category.Added
  else if containsSub "fix" s || containsSub "bug" s || containsSub "patch" s ||
      containsSub "resolve" s then Category.Fixed
  else if containsSub "remove" s || containsSub "delete" s || containsSub "drop" s then
    Category.Removed
  else if containsSub "deprecate" s then Category.Deprecated
  else if containsSub "security" s || containsSub "cve" s ||
      containsSub "vulnerability" s then Category.Security
  else Category.Changed

/-- Modelled from the spec: the commit classifier of §4.3 — parse the
conventional-commit syntax, scan for breaking indicators, then assign the
category: Breaking when `isBreaking`, else through the type table, else by
keyword fallback. -/
def classifyCommit (c : Commit) : ClassifiedCommit :=
  let parsed := parseConventional c.subject
  let commitType := parsed.map (fun p => p.1)
  let scope := parsed.bind (fun p => p.2.1)
  let bang := match parsed with
    | some p => p.2.2
    | none => false
  let isBreaking := bang || hasBreakingIndicator c.subject c.body
  let category : Option Category :=
    if isBreaking then some Category.Breaking
    else
      match commitType with
      | some t =>
          (match typeCategoryTable.find? (fun p => p.1 == t) with
           | some p => p.2
           | none => some (keywordFallback c.subject))
      | none => some (keywordFallback c.subject)
  { commitType := commitType, scope := scope, isBreaking := isBreaking, category := category }

example :
    classifyCommit ⟨"a1", "feat(core): add IFoo provider", "", "x", "2025-01-01", []⟩ =
      ⟨some "feat", some "core", false, some Category.Added⟩ := by decide

example :
    (classifyCommit ⟨"a2", "feat!: remove ILegacy", "", "x", "2025-01-01", []⟩).category =
      some Category.Breaking := by decide

/-- Claim C1: whenever the classifier derives `isBreaking = true` for a
commit, the assigned category is Breaking, regardless of the commit type
or any keyword-derived category. -/
theorem classifier_breaking_precedence (c : Commit)
    (h : (classifyCommit c).isBreaking = true) :
    (classifyCommit c).category = some Category.Breaking := by
  simp only [classifyCommit] at h ⊢
  rw [if_pos h]

/-- Claim C1 witness: the spec scenario `feat!: remove ILegacy` — the `!`
marker sets `isBreaking`, and the category is Breaking rather than the
Added that `feat` alone would give. -/
theorem classifier_breaking_precedence_witness :
    (classifyCommit ⟨"a2", "feat!: remove ILegacy", "", "x", "2025-01-01", []⟩).isBreaking = true
    ∧ (classifyCommit ⟨"a2", "feat!: remove ILegacy", "", "x", "2025-01-01", []⟩).category =
        some Category.Breaking :=
  ⟨by decide,
   classifier_breaking_precedence ⟨"a2", "feat!: remove ILegacy", "", "x", "2025-01-01", []⟩
     (by decide)⟩
